import Mathlib

/-
Verification development for the curro_solarman_api repository.

Shallow embedding of the resumable fetch pipeline:
  * processor/checkpoint_manager.py  (CheckpointManager)
  * processor/processor.py           (DeviceDataProcessor.run and helpers)
  * api/data.py                      (fetch_device_data retry loop)
  * utils/dates.py                   (get_daily_unix_ranges)
  * shutdown/shutdown_controller.py  (is_shutdown_requested)

Conventions: Python sets and dicts are modelled as lists and association
lists with membership-idempotent insertion; Unix timestamps are Int;
calendar-day keys (the strings produced by strftime of the day start)
are modelled through an abstract key function so that the only fact the
code relies on - processor._get_remaining_dates and processor.process_date
derive the key from start_unix by the same expression - is preserved.
Wall-clock metadata fields of checkpoint_data (start_time, last_updated)
carry datetime.now() strings that no claim concerns; they are omitted
from the record.
-/

namespace Solarman

abbrev Serial := String

abbrev Day := String

/-- In-memory checkpoint record, mirroring CheckpointManager.checkpoint_data
(checkpoint_manager.py lines 25-34): cursor fields, the completed_devices
set and the completed_dates dict {device_serial: set(dates)}, and the
schema version string. -/
structure Checkpoint where
  current_device_index : Nat
  current_device_serial : Option Serial
  current_date : Option Day
  completed_devices : List Serial
  completed_dates : List (Serial × List Day)
  version : String
deriving Repr, DecidableEq

/-- The initial checkpoint_data built in CheckpointManager.__init__. -/
def emptyCheckpoint : Checkpoint :=
  { current_device_index := 0
    current_device_serial := none
    current_date := none
    completed_devices := []
    completed_dates := []
    version := "1.0" }

/-- Python dict lookup (completed_dates[device_serial]) on the association
list model: first entry with the given key. -/
def dictGet : List (Serial × List Day) → Serial → Option (List Day)
  | [], _ => none
  | (k, v) :: rest, d => if k = d then some v else dictGet rest d

/-- Effect of `if serial not in dict: dict[serial] = set()` followed by
`dict[serial].add(date)` (checkpoint_manager.py lines 118-120): insert the
day into the device's set, creating the entry if missing; set add is
membership-idempotent. -/
def dictAddDate : List (Serial × List Day) → Serial → Day → List (Serial × List Day)
  | [], d, day => [(d, [day])]
  | (k, v) :: rest, d, day =>
    if k = d then (k, if day ∈ v then v else day :: v) :: rest
    else (k, v) :: dictAddDate rest d day

/-- The boolean `device_serial in dict and date in dict[device_serial]`
computed over the association-list model. -/
def datesLookupHas (m : List (Serial × List Day)) (d : Serial) (day : Day) : Bool :=
  match dictGet m d with
  | none => false
  | some s => decide (day ∈ s)

/-- CheckpointManager.is_device_complete (lines 160-162): membership of the
serial in the completed_devices set. -/
def is_device_complete (cp : Checkpoint) (d : Serial) : Bool :=
  decide (d ∈ cp.completed_devices)

/-- CheckpointManager.is_date_complete (lines 164-169): the short-circuit
conjunction `serial in completed_dates and date in completed_dates[serial]`. -/
def is_date_complete (cp : Checkpoint) (d : Serial) (day : Day) : Bool :=
  datesLookupHas cp.completed_dates d day

/-- In-memory effect of CheckpointManager.mark_date_complete (lines 116-125):
add the day to the device's completed set.  The save_checkpoint call it
then makes passes the current cursor values back, so the cursor is
unchanged; persistence is modelled separately. -/
def mark_date_complete (cp : Checkpoint) (d : Serial) (day : Day) : Checkpoint :=
  { cp with completed_dates := dictAddDate cp.completed_dates d day }

/-- In-memory effect of CheckpointManager.mark_device_complete (lines 107-114):
add the serial to the completed_devices set (set add: idempotent). -/
def mark_device_complete (cp : Checkpoint) (d : Serial) : Checkpoint :=
  { cp with completed_devices :=
      if d ∈ cp.completed_devices then cp.completed_devices else d :: cp.completed_devices }

/-- In-memory effect of save_checkpoint's checkpoint_data.update
(checkpoint_manager.py lines 50-57): overwrite the cursor fields. -/
def update_cursor (cp : Checkpoint) (i : Nat) (s : Option Serial) (d : Option Day) : Checkpoint :=
  { cp with current_device_index := i, current_device_serial := s, current_date := d }

/-- Exception-explicit embedding of is_device_complete: the Python method
can in principle raise and mutate self; the body is a pure set-membership
test, so it always returns ok and hands the state back unchanged. -/
def is_device_complete_checked (cp : Checkpoint) (d : Serial) :
    Except Unit (Bool × Checkpoint) :=
  Except.ok (decide (d ∈ cp.completed_devices), cp)

/-- Exception-explicit embedding of is_date_complete: the subscript
completed_dates[serial] raises KeyError when the key is absent, but it is
guarded by the short-circuit `serial in completed_dates` test, exactly as
in the source. -/
def is_date_complete_checked (cp : Checkpoint) (d : Serial) (day : Day) :
    Except Unit (Bool × Checkpoint) :=
  if (dictGet cp.completed_dates d).isSome then
    match dictGet cp.completed_dates d with
    | some s => Except.ok (decide (day ∈ s), cp)
    | none => Except.error ()
  else
    Except.ok (false, cp)

/-- What a read of the checkpoint file can find: no file, a file that
pickle.load cannot deserialize, or a well-formed serialized checkpoint. -/
inductive DiskRead
  | missing
  | corrupt
  | ok (cp : Checkpoint)
deriving Repr, DecidableEq

/-- CheckpointManager.load_checkpoint (lines 127-158).  Returns the new
in-memory state together with the method's return value (None or the
loaded record).  Missing file: return None, state untouched.  Successful
load: checkpoint_data.update(loaded_data) replaces every field (the loaded
record carries all keys), and loaded_data is returned.  Deserialization
failure: the `except Exception` arm prints and returns None, leaving the
in-memory state at its initial value. -/
def load_checkpoint (cur : Checkpoint) (disk : DiskRead) : Checkpoint × Option Checkpoint :=
  match disk with
  | DiskRead.missing => (cur, none)
  | DiskRead.corrupt => (cur, none)
  | DiskRead.ok l => (l, some l)

/-- Byte encoding of a string for the serialized checkpoint model. -/
def encodeString (s : String) : List Nat :=
  s.length :: s.data.map Char.toNat

/-- Byte encoding of an optional string. -/
def encodeOptionString : Option String → List Nat
  | none => [0]
  | some s => 1 :: encodeString s

/-- Byte encoding of one completed_dates entry. -/
def encodeDateEntry (e : Serial × List Day) : List Nat :=
  encodeString e.1 ++ e.2.length :: (e.2.map encodeString).foldr List.append []

/-- The complete serialization pickle.dump writes for a checkpoint record:
every field of the record, in order. -/
def serializeCheckpoint (cp : Checkpoint) : List Nat :=
  cp.current_device_index
    :: encodeOptionString cp.current_device_serial
    ++ encodeOptionString cp.current_date
    ++ cp.completed_devices.length
      :: (cp.completed_devices.map encodeString).foldr List.append []
    ++ cp.completed_dates.length
      :: (cp.completed_dates.map encodeDateEntry).foldr List.append []
    ++ encodeString cp.version

/-- The two files save_checkpoint touches: the checkpoint target and the
temporary file created next to it in the same directory. -/
structure FS where
  target : Option (List Nat)
  temp : Option (List Nat)
deriving Repr, DecidableEq

/-- The filesystem operations of one save_checkpoint attempt
(checkpoint_manager.py lines 66-83): write the full serialization to the
temporary file (pickle.dump + flush), force it to stable storage
(os.fsync), then atomically rename the temporary file over the target
(temp_path.replace(file)). -/
inductive PersistOp
  | writeTemp (content : List Nat)
  | fsyncTemp
  | renameTempToTarget
deriving Repr, DecidableEq

/-- Effect of one filesystem operation. -/
def applyOp (fs : FS) : PersistOp → FS
  | PersistOp.writeTemp c => { fs with temp := some c }
  | PersistOp.fsyncTemp => fs
  | PersistOp.renameTempToTarget => { target := fs.temp, temp := none }

/-- Run a sequence of filesystem operations; a crash at operation k is
modelled by running only the first k operations. -/
def runOps (fs : FS) (ops : List PersistOp) : FS :=
  ops.foldl applyOp fs

/-- The operation sequence of one persist attempt for the given content. -/
def persistOps (content : List Nat) : List PersistOp :=
  [PersistOp.writeTemp content, PersistOp.fsyncTemp, PersistOp.renameTempToTarget]

/-- Events of the save_checkpoint retry loop (checkpoint_manager.py
lines 63-105). -/
inductive SaveEvent
  | writeTemp (attempt : Nat)
  | renameTry (attempt : Nat)
  | renameOk (attempt : Nat)
  | sleepBackoff (attempt : Nat) (duration : Nat)
  | unlinkTemp (attempt : Nat)
deriving Repr, DecidableEq

/-- The save_checkpoint retry loop: `for attempt in range(max_retries)`,
each attempt writing a fresh temp file and trying the atomic rename.  A
PermissionError from the rename (renameFails) with retries left sleeps
retry_delay * 2 ** attempt and continues; on the last attempt the error is
re-raised, the outer handler unlinks the temp file and re-raises the last
error.  Result: some attempt on success at that attempt, none when the
loop raises (retry_delay is in tenths of a second so that the default 0.1
is the unit). -/
def save_checkpoint_attempts (renameFails : Nat → Bool) (max_retries retry_delay : Nat)
    (attempt : Nat) : Option Nat × List SaveEvent :=
  if h : attempt < max_retries then
    if renameFails attempt then
      if attempt < max_retries - 1 then
        let d := retry_delay * 2 ^ attempt
        let r := save_checkpoint_attempts renameFails max_retries retry_delay (attempt + 1)
        (r.1, SaveEvent.writeTemp attempt :: SaveEvent.renameTry attempt
          :: SaveEvent.sleepBackoff attempt d :: r.2)
      else
        (none, [SaveEvent.writeTemp attempt, SaveEvent.renameTry attempt,
          SaveEvent.unlinkTemp attempt])
    else
      (some attempt, [SaveEvent.writeTemp attempt, SaveEvent.renameTry attempt,
        SaveEvent.renameOk attempt])
  else
    (none, [])
termination_by max_retries - attempt
decreasing_by omega

/-- Number of rename attempts in a save trace. -/
def countRenameTries : List SaveEvent → Nat
  | [] => 0
  | SaveEvent.renameTry _ :: rest => countRenameTries rest + 1
  | _ :: rest => countRenameTries rest

/-- The backoff sleep durations of a save trace, in order. -/
def saveSleeps : List SaveEvent → List Nat
  | [] => []
  | SaveEvent.sleepBackoff _ d :: rest => d :: saveSleeps rest
  | _ :: rest => saveSleeps rest

/-- Outcome of one request attempt inside fetch_device_data: an HTTP
response with a status code, a requests Timeout, or another
RequestException (connection failure). -/
inductive AttemptResult
  | status (code : Nat)
  | timeout
  | connError
deriving Repr, DecidableEq

/-- Errors fetch_device_data can raise after exhausting retries: the
RequestException wrapping the last HTTPError (carrying the last status),
the Timeout re-raise, or the RequestException wrapping another
request failure. -/
inductive FetchErr
  | requestFailed (lastStatus : Nat)
  | timedOut
  | requestExc
deriving Repr, DecidableEq

/-- Result of fetch_device_data: the response payload (status below 400),
the None fall-through when the while loop is never entered, or a raised
terminal error. -/
inductive FetchResult
  | payload (status : Nat)
  | noneResult
  | raised (e : FetchErr)
deriving Repr, DecidableEq

/-- Observable events of a fetch: a network request attempt, a backoff
sleep before the next attempt, and an observation of the process-wide
shutdown signal (is_shutdown_requested).  The last constructor names the
observation point the specification posits before each backoff sleep;
fetch_device_data's body (api/data.py lines 54-113) contains no such
observation, so the fetch embedding never emits it. -/
inductive FetchEvent
  | request (attempt : Nat)
  | backoffSleep (attempt : Nat) (duration : Nat)
  | checkSignal (attempt : Nat)
deriving Repr, DecidableEq

/-- The backoff delay of api/data.py line 110:
min(backoff * (2 ** retry_count), 60), with backoff = initial_backoff. -/
def backoffDelay (initial_backoff retry_count : Nat) : Nat :=
  min (initial_backoff * 2 ^ retry_count) 60

/-- The while loop of fetch_device_data (api/data.py lines 54-115),
parametrised by the outcome of each request attempt.  A status of 500 or
more raises HTTPError explicitly (line 69); response.raise_for_status()
raises HTTPError for any 4xx status; both are handled by the same
`except HTTPError` arm, which re-raises a terminal RequestException only
on the last attempt and otherwise falls through to the backoff sleep.
Timeouts and other request failures behave the same through their own
arms.  A status below 400 returns the response payload. -/
def fetchLoop (responses : Nat → AttemptResult) (max_retries initial_backoff retry_count : Nat) :
    FetchResult × List FetchEvent :=
  if h : retry_count < max_retries then
    match responses retry_count with
    | AttemptResult.status code =>
      if 400 ≤ code then
        if retry_count = max_retries - 1 then
          (FetchResult.raised (FetchErr.requestFailed code), [FetchEvent.request retry_count])
        else
          let d := backoffDelay initial_backoff retry_count
          let r := fetchLoop responses max_retries initial_backoff (retry_count + 1)
          (r.1, FetchEvent.request retry_count :: FetchEvent.backoffSleep retry_count d :: r.2)
      else
        (FetchResult.payload code, [FetchEvent.request retry_count])
    | AttemptResult.timeout =>
      if retry_count = max_retries - 1 then
        (FetchResult.raised FetchErr.timedOut, [FetchEvent.request retry_count])
      else
        let d := backoffDelay initial_backoff retry_count
        let r := fetchLoop responses max_retries initial_backoff (retry_count + 1)
        (r.1, FetchEvent.request retry_count :: FetchEvent.backoffSleep retry_count d :: r.2)
    | AttemptResult.connError =>
      if retry_count = max_retries - 1 then
        (FetchResult.raised FetchErr.requestExc, [FetchEvent.request retry_count])
      else
        let d := backoffDelay initial_backoff retry_count
        let r := fetchLoop responses max_retries initial_backoff (retry_count + 1)
        (r.1, FetchEvent.request retry_count :: FetchEvent.backoffSleep retry_count d :: r.2)
  else
    (FetchResult.noneResult, [])
termination_by max_retries - retry_count
decreasing_by all_goals omega

/-- fetch_device_data: run the retry loop from retry_count = 0. -/
def fetch_device_data (responses : Nat → AttemptResult) (max_retries initial_backoff : Nat) :
    FetchResult × List FetchEvent :=
  fetchLoop responses max_retries initial_backoff 0

/-- Number of network request attempts in a fetch trace. -/
def countRequests : List FetchEvent → Nat
  | [] => 0
  | FetchEvent.request _ :: rest => countRequests rest + 1
  | _ :: rest => countRequests rest

/-- Number of shutdown-signal observations in a fetch trace. -/
def countSignalChecks : List FetchEvent → Nat
  | [] => 0
  | FetchEvent.checkSignal _ :: rest => countSignalChecks rest + 1
  | _ :: rest => countSignalChecks rest

/-- Number of backoff sleeps in a fetch trace. -/
def countSleeps : List FetchEvent → Nat
  | [] => 0
  | FetchEvent.backoffSleep _ _ :: rest => countSleeps rest + 1
  | _ :: rest => countSleeps rest

/-- Helper for sleepPrecededByCheck: seen records whether a signal
observation has occurred earlier in the trace. -/
def sleepCheckGo : Bool → List FetchEvent → Bool
  | _, [] => true
  | _, FetchEvent.checkSignal _ :: rest => sleepCheckGo true rest
  | seen, FetchEvent.backoffSleep _ _ :: rest => seen && sleepCheckGo seen rest
  | seen, FetchEvent.request _ :: rest => sleepCheckGo seen rest

/-- Whether every backoff sleep in a trace is preceded by an observation
of the shutdown signal. -/
def sleepPrecededByCheck (evs : List FetchEvent) : Bool :=
  sleepCheckGo false evs

/-- Nondeterminism oracles for one coordinator run: whether the fetch of a
unit (identified by serial and start timestamp) succeeds or raises,
whether the checkpoint persists made while marking a unit complete
succeed or raise, whether the persist inside mark_device_complete
succeeds, and the value of is_shutdown_requested at each successive
observation (indexed by a global count of observations made). -/
structure Oracles where
  fetchOk : Serial → Int → Bool
  persistOk : Serial → Day → Bool
  devicePersistOk : Serial → Bool
  shutdown : Nat → Bool

/-- Static configuration of a run: the day-partitioned date ranges
(get_daily_unix_ranges output) and the key function mapping a range's
start timestamp to its calendar-day string.  Both _get_remaining_dates
(processor.py lines 163-168) and process_date (lines 174-175) derive the
key from start_unix by the same datetime.fromtimestamp(...).strftime
expression, which dayKey models. -/
structure RunConfig where
  dayKey : Int → Day
  dateRanges : List (Int × Int)

/-- The submission loop of DeviceDataProcessor.run (lines 258-265): for
each task, observe the shutdown signal; if set, stop submitting (the
device will not be completed), otherwise submit the task to the executor.
Returns the submitted tasks, the completed_all_dates flag so far, and the
observation counter. -/
def submitPhase (O : Oracles) : List (Int × Int) → Nat → List (Int × Int) × Bool × Nat
  | [], c => ([], true, c)
  | t :: ts, c =>
    if O.shutdown c then ([], false, c + 1)
    else
      let r := submitPhase O ts (c + 1)
      (t :: r.1, r.2.1, r.2.2)

/-- The consumption loop of DeviceDataProcessor.run (lines 267-285): for
each submitted future, observe the shutdown signal (break if set), then
future.result() - which re-raises the fetch's terminal error, caught by
the per-device handler that clears completed_all_dates - and on success
drain the result queue, calling mark_date_complete followed by an
explicit save_checkpoint that updates the cursor.  A raise from either
persist is likewise caught by the per-device handler; the in-memory date
mark precedes the persist, the cursor update is folded into the
success case. -/
def consumePhase (O : Oracles) (cfg : RunConfig) (serial : Serial) (idx : Nat) :
    List (Int × Int) → Checkpoint → Nat → Checkpoint × Bool × Nat
  | [], cp, c => (cp, true, c)
  | (s, _) :: rest, cp, c =>
    if O.shutdown c then (cp, false, c + 1)
    else if O.fetchOk serial s then
      let day := cfg.dayKey s
      let cp1 := mark_date_complete cp serial day
      if O.persistOk serial day then
        consumePhase O cfg serial idx rest (update_cursor cp1 idx (some serial) (some day)) (c + 1)
      else (cp1, false, c + 1)
    else (cp, false, c + 1)

/-- Result of processing one device. -/
structure DeviceResult where
  cp : Checkpoint
  marked : Bool
  subs : List Int
  ctr : Nat
  aborted : Bool
deriving Repr

/-- DeviceDataProcessor._get_remaining_dates (lines 155-170): the date
ranges whose day key is not yet recorded complete for the device. -/
def get_remaining_dates (cfg : RunConfig) (cp : Checkpoint) (serial : Serial) :
    List (Int × Int) :=
  cfg.dateRanges.filter (fun r => ! is_date_complete cp serial (cfg.dayKey r.1))

/-- DeviceDataProcessor._get_remaining_devices (lines 144-153): the
devices not yet recorded fully complete, in registry order. -/
def get_remaining_devices (cp : Checkpoint) (device_ids : List Serial) : List Serial :=
  device_ids.filter (fun d => ! is_device_complete cp d)

/-- Processing of one device in DeviceDataProcessor.run (lines 221-315):
compute the remaining date ranges by filtering the configured ranges
against is_date_complete (_get_remaining_dates, lines 155-170), submit
them, consume the results, and - only if completed_all_dates survived -
call mark_device_complete.  A raise from the persist inside
mark_device_complete happens outside the per-device handler and is fatal
to the run (aborted).  subs records the start timestamps of the units
actually submitted to the executor. -/
def processDevice (O : Oracles) (cfg : RunConfig) (cp : Checkpoint) (serial : Serial)
    (idx : Nat) (c : Nat) : DeviceResult :=
  let sub := submitPhase O (get_remaining_dates cfg cp serial) c
  let cons := consumePhase O cfg serial idx sub.1 cp sub.2.2
  if sub.2.1 && cons.2.1 then
    { cp := mark_device_complete cons.1 serial
      marked := true
      subs := sub.1.map Prod.fst
      ctr := cons.2.2
      aborted := ! O.devicePersistOk serial }
  else
    { cp := cons.1, marked := false, subs := sub.1.map Prod.fst, ctr := cons.2.2,
      aborted := false }

/-- Result of a whole run: the final in-memory checkpoint, the submitted
units as (serial, start timestamp) pairs, and whether the run aborted
with a DeviceDataProcessorError. -/
structure RunResult where
  final : Checkpoint
  subs : List (Serial × Int)
  aborted : Bool
deriving Repr

/-- The device loop of DeviceDataProcessor.run (lines 221-317): devices
are processed sequentially in list order; a fatal error stops the loop. -/
def runDevices (O : Oracles) (cfg : RunConfig) :
    List Serial → Checkpoint → Nat → Nat → RunResult
  | [], cp, _, _ => { final := cp, subs := [], aborted := false }
  | d :: ds, cp, idx, c =>
    let r := processDevice O cfg cp d idx c
    if r.aborted then
      { final := r.cp, subs := r.subs.map (fun s => (d, s)), aborted := true }
    else
      let rest := runDevices O cfg ds r.cp (idx + 1) r.ctr
      { final := rest.final
        subs := r.subs.map (fun s => (d, s)) ++ rest.subs
        aborted := rest.aborted }

/-- DeviceDataProcessor.run after the checkpoint load: compute the
remaining devices once by filtering the registry order against
is_device_complete (_get_remaining_devices, lines 144-153), then process
them sequentially. -/
def run (O : Oracles) (cfg : RunConfig) (device_ids : List Serial) (cp0 : Checkpoint) :
    RunResult :=
  runDevices O cfg (get_remaining_devices cp0 device_ids) cp0 0 0

/-- The invariant §3 of the specification states for checkpoints: a
device appears in completed_devices only if every day of the configured
range appears in its completed_dates entry. -/
def DeviceInvariant (cfg : RunConfig) (cp : Checkpoint) : Prop :=
  ∀ d, is_device_complete cp d = true →
    ∀ r ∈ cfg.dateRanges, is_date_complete cp d (cfg.dayKey r.1) = true

/-- Timestamp of a local calendar time in a fixed-offset timezone: days
are counted from the epoch, tzOffset is the zone's offset east of UTC in
seconds (utils/dates.py builds datetimes with tzinfo=tz and takes
.timestamp()). -/
def dayTimestamp (tzOffset : Int) (day h m s : Nat) : Int :=
  (day : Int) * 86400 + (h : Int) * 3600 + (m : Int) * 60 + (s : Int) - tzOffset

/-- get_daily_unix_ranges (utils/dates.py lines 12-33) over a
fixed-offset timezone, with the parsed start and end dates given as epoch
day numbers: one (start, end) pair per day from startDay to endDay
inclusive, start at 00:00:00 and end at 23:59:59 of the same day. -/
def get_daily_unix_ranges (startDay endDay : Nat) (tzOffset : Int) : List (Int × Int) :=
  (List.range' startDay (endDay + 1 - startDay)).map
    (fun d => (dayTimestamp tzOffset d 0 0 0, dayTimestamp tzOffset d 23 59 59))

/-- Run configuration for concrete executions: a single one-day range
whose day key is the constant string d0. -/
def cfgDemo : RunConfig :=
  { dayKey := fun _ => "d0", dateRanges := [((0 : Int), (86399 : Int))] }

/-- Oracles for a clean run: no shutdown, every fetch succeeds, every
persist succeeds. -/
def cleanOracles : Oracles :=
  { fetchOk := fun _ _ => true
    persistOk := fun _ _ => true
    devicePersistOk := fun _ => true
    shutdown := fun _ => false }

/-- Oracles for a run in which every per-unit checkpoint persist raises
after exhausting its retries, while fetches succeed and no shutdown is
requested. -/
def unitPersistFailOracles : Oracles :=
  { fetchOk := fun _ _ => true
    persistOk := fun _ _ => false
    devicePersistOk := fun _ => true
    shutdown := fun _ => false }

/-- A checkpoint in which device A has day d0 recorded as complete. -/
def cpWithA : Checkpoint :=
  { emptyCheckpoint with completed_dates := [("A", ["d0"])] }

/-- Run configuration with two one-day ranges: the unit starting at 0
has day key d0 and the unit starting at 86400 has day key d1. -/
def cfgTwoDays : RunConfig :=
  { dayKey := fun s => if s = 86400 then "d1" else "d0"
    dateRanges := [((0 : Int), (86399 : Int)), ((86400 : Int), (172799 : Int))] }

/-- Oracles for a mixed run: only the fetch of the unit starting at
86400 raises its terminal error after exhausting retries; every other
fetch and every persist succeeds, and no shutdown is requested. -/
def oneUnitFailOracles : Oracles :=
  { fetchOk := fun _ s => if s = 86400 then false else true
    persistOk := fun _ _ => true
    devicePersistOk := fun _ => true
    shutdown := fun _ => false }

/-- A filesystem state with an existing checkpoint target and no
temporary file. -/
def fsDemo : FS :=
  { target := some [7, 7, 7], temp := none }

theorem datesLookupHas_dictAddDate_self (m : List (Serial × List Day)) (d : Serial) (day : Day) :
    datesLookupHas (dictAddDate m d day) d day = true := by
  induction m with
  | nil => simp [dictAddDate, datesLookupHas, dictGet]
  | cons hd tl ih =>
    obtain ⟨k, v⟩ := hd
    by_cases hk : k = d
    · subst hk
      by_cases hv : day ∈ v <;> simp [dictAddDate, datesLookupHas, dictGet, hv]
    · simpa [dictAddDate, datesLookupHas, dictGet, hk] using ih

theorem datesLookupHas_dictAddDate_mono (m : List (Serial × List Day)) (d day d0 day0)
    (h : datesLookupHas m d0 day0 = true) :
    datesLookupHas (dictAddDate m d day) d0 day0 = true := by
  induction m with
  | nil => simp [datesLookupHas, dictGet] at h
  | cons hd tl ih =>
    obtain ⟨k, v⟩ := hd
    by_cases hk : k = d
    · subst hk
      by_cases hd0 : k = d0
      · subst hd0
        simp [datesLookupHas, dictGet] at h
        by_cases hv : day ∈ v <;> simp [dictAddDate, datesLookupHas, dictGet, hv, h]
      · simp [datesLookupHas, dictGet, hd0] at h
        by_cases hv : day ∈ v <;> simp [dictAddDate, datesLookupHas, dictGet, hd0, hv, h]
    · by_cases hd0 : k = d0
      · subst hd0
        simp [datesLookupHas, dictGet] at h
        simp [dictAddDate, datesLookupHas, dictGet, hk, h]
      · simp [datesLookupHas, dictGet, hd0] at h
        simpa [dictAddDate, datesLookupHas, dictGet, hk, hd0] using ih h

theorem datesLookupHas_dictAddDate_other (m : List (Serial × List Day)) (d day d0 day0)
    (h : d ≠ d0) :
    datesLookupHas (dictAddDate m d day) d0 day0 = datesLookupHas m d0 day0 := by
  induction m with
  | nil => simp [dictAddDate, datesLookupHas, dictGet, h]
  | cons hd tl ih =>
    obtain ⟨k, v⟩ := hd
    by_cases hk : k = d
    · subst hk
      by_cases hv : day ∈ v <;> simp [dictAddDate, datesLookupHas, dictGet, h, hv]
    · by_cases hd0 : k = d0
      · subst hd0
        simp [dictAddDate, datesLookupHas, dictGet, hk]
      · simpa [dictAddDate, datesLookupHas, dictGet, hk, hd0] using ih

theorem datesLookupHas_dictAddDate_other_day (m : List (Serial × List Day)) (d : Serial)
    (day : Day) (d0 : Serial) (day0 : Day) (h : day ≠ day0) :
    datesLookupHas (dictAddDate m d day) d0 day0 = datesLookupHas m d0 day0 := by
  induction m with
  | nil =>
    by_cases hd : d = d0
    · subst hd
      simp [dictAddDate, datesLookupHas, dictGet, Ne.symm h]
    · simp [dictAddDate, datesLookupHas, dictGet, hd]
  | cons hd tl ih =>
    obtain ⟨k, v⟩ := hd
    by_cases hk : k = d
    · subst hk
      by_cases hk0 : k = d0
      · subst hk0
        by_cases hv : day ∈ v <;>
          simp [dictAddDate, datesLookupHas, dictGet, hv, Ne.symm h]
      · by_cases hv : day ∈ v <;>
          simp [dictAddDate, datesLookupHas, dictGet, hk0, hv]
    · by_cases hk0 : k = d0
      · subst hk0
        simp [dictAddDate, datesLookupHas, dictGet, hk]
      · simpa [dictAddDate, datesLookupHas, dictGet, hk, hk0] using ih

theorem is_date_complete_mark_self (cp : Checkpoint) (d : Serial) (day : Day) :
    is_date_complete (mark_date_complete cp d day) d day = true :=
  datesLookupHas_dictAddDate_self cp.completed_dates d day

theorem is_date_complete_mark_mono (cp : Checkpoint) (d day d0 day0)
    (h : is_date_complete cp d0 day0 = true) :
    is_date_complete (mark_date_complete cp d day) d0 day0 = true :=
  datesLookupHas_dictAddDate_mono cp.completed_dates d day d0 day0 h

theorem is_date_complete_mark_other (cp : Checkpoint) (d day d0 day0) (h : d ≠ d0) :
    is_date_complete (mark_date_complete cp d day) d0 day0 = is_date_complete cp d0 day0 :=
  datesLookupHas_dictAddDate_other cp.completed_dates d day d0 day0 h

theorem is_date_complete_mark_other_day (cp : Checkpoint) (d day d0 day0) (h : day ≠ day0) :
    is_date_complete (mark_date_complete cp d day) d0 day0 = is_date_complete cp d0 day0 :=
  datesLookupHas_dictAddDate_other_day cp.completed_dates d day d0 day0 h

theorem is_date_complete_update_cursor (cp : Checkpoint) (i s dd d0 day0) :
    is_date_complete (update_cursor cp i s dd) d0 day0 = is_date_complete cp d0 day0 := rfl

theorem is_date_complete_mark_device (cp : Checkpoint) (d d0 day0) :
    is_date_complete (mark_device_complete cp d) d0 day0 = is_date_complete cp d0 day0 := rfl

theorem is_device_complete_mark_date (cp : Checkpoint) (d day d0) :
    is_device_complete (mark_date_complete cp d day) d0 = is_device_complete cp d0 := rfl

theorem is_device_complete_update_cursor (cp : Checkpoint) (i s dd d0) :
    is_device_complete (update_cursor cp i s dd) d0 = is_device_complete cp d0 := rfl

theorem is_device_complete_mark_device_self (cp : Checkpoint) (d : Serial) :
    is_device_complete (mark_device_complete cp d) d = true := by
  by_cases h : d ∈ cp.completed_devices <;>
    simp [mark_device_complete, is_device_complete, h]

theorem is_device_complete_mark_device_mono (cp : Checkpoint) (d d0 : Serial)
    (h : is_device_complete cp d0 = true) :
    is_device_complete (mark_device_complete cp d) d0 = true := by
  simp [is_device_complete] at h
  by_cases hd : d ∈ cp.completed_devices <;>
    simp [mark_device_complete, is_device_complete, hd, h]

theorem submitPhase_subset (O : Oracles) (ts : List (Int × Int)) (c : Nat) :
    ∀ x ∈ (submitPhase O ts c).1, x ∈ ts := by
  induction ts generalizing c with
  | nil => simp [submitPhase]
  | cons t ts ih =>
    intro x hx
    by_cases hs : O.shutdown c = true
    · simp [submitPhase, hs] at hx
    · simp only [submitPhase, hs, if_false] at hx
      rcases List.mem_cons.mp hx with h | h
      · simp [h]
      · exact List.mem_cons_of_mem _ (ih (c + 1) x h)

theorem submitPhase_ok_eq (O : Oracles) (ts : List (Int × Int)) (c : Nat)
    (h : (submitPhase O ts c).2.1 = true) : (submitPhase O ts c).1 = ts := by
  induction ts generalizing c with
  | nil => rfl
  | cons t ts ih =>
    by_cases hs : O.shutdown c = true
    · simp [submitPhase, hs] at h
    · simp [submitPhase, hs] at h ⊢
      exact ih (c + 1) h

theorem submitPhase_no_shutdown (O : Oracles) (ts : List (Int × Int)) (c : Nat)
    (hsd : ∀ k, O.shutdown k = false) :
    submitPhase O ts c = (ts, true, c + ts.length) := by
  induction ts generalizing c with
  | nil => simp [submitPhase]
  | cons t ts ih =>
    simp only [submitPhase, hsd c, Bool.false_eq_true, if_false, ih (c + 1)]
    simp [List.length_cons]
    omega

theorem consumePhase_mono_date (O : Oracles) (cfg : RunConfig) (serial : Serial) (idx : Nat)
    (fut : List (Int × Int)) (cp : Checkpoint) (c : Nat) (d0 : Serial) (day0 : Day)
    (h : is_date_complete cp d0 day0 = true) :
    is_date_complete (consumePhase O cfg serial idx fut cp c).1 d0 day0 = true := by
  induction fut generalizing cp c with
  | nil => simpa [consumePhase] using h
  | cons t fut ih =>
    obtain ⟨s, e⟩ := t
    by_cases hs : O.shutdown c = true
    · simpa [consumePhase, hs] using h
    · by_cases hf : O.fetchOk serial s = true
      · by_cases hp : O.persistOk serial (cfg.dayKey s) = true
        · simp only [consumePhase]
          rw [if_neg hs, if_pos hf, if_pos hp]
          exact ih _ _ (by
            rw [is_date_complete_update_cursor]
            exact is_date_complete_mark_mono cp serial (cfg.dayKey s) d0 day0 h)
        · simpa [consumePhase, hs, hf, hp] using
            is_date_complete_mark_mono cp serial (cfg.dayKey s) d0 day0 h
      · simpa [consumePhase, hs, hf] using h

theorem consumePhase_mono_device (O : Oracles) (cfg : RunConfig) (serial : Serial) (idx : Nat)
    (fut : List (Int × Int)) (cp : Checkpoint) (c : Nat) (d0 : Serial) :
    is_device_complete (consumePhase O cfg serial idx fut cp c).1 d0 =
      is_device_complete cp d0 := by
  induction fut generalizing cp c with
  | nil => simp [consumePhase]
  | cons t fut ih =>
    obtain ⟨s, e⟩ := t
    by_cases hs : O.shutdown c = true
    · simp [consumePhase, hs]
    · by_cases hf : O.fetchOk serial s = true
      · by_cases hp : O.persistOk serial (cfg.dayKey s) = true
        · simp only [consumePhase]
          rw [if_neg hs, if_pos hf, if_pos hp]
          rw [ih]
          rw [is_device_complete_update_cursor, is_device_complete_mark_date]
        · simp [consumePhase, hs, hf, hp, is_device_complete_mark_date]
      · simp [consumePhase, hs, hf]

theorem consumePhase_ok_marks (O : Oracles) (cfg : RunConfig) (serial : Serial) (idx : Nat)
    (fut : List (Int × Int)) (cp : Checkpoint) (c : Nat)
    (h : (consumePhase O cfg serial idx fut cp c).2.1 = true) :
    ∀ p ∈ fut,
      is_date_complete (consumePhase O cfg serial idx fut cp c).1 serial (cfg.dayKey p.1)
        = true := by
  induction fut generalizing cp c with
  | nil => simp
  | cons t fut ih =>
    obtain ⟨s, e⟩ := t
    intro p hp
    by_cases hs : O.shutdown c = true
    · simp [consumePhase, hs] at h
    · by_cases hf : O.fetchOk serial s = true
      · by_cases hpk : O.persistOk serial (cfg.dayKey s) = true
        · simp only [consumePhase] at h ⊢
          rw [if_neg hs, if_pos hf, if_pos hpk] at h ⊢
          rcases List.mem_cons.mp hp with rfl | hmem
          · apply consumePhase_mono_date
            rw [is_date_complete_update_cursor]
            exact is_date_complete_mark_self cp serial _
          · exact ih _ _ h _ hmem
        · simp [consumePhase, hs, hf, hpk] at h
      · simp [consumePhase, hs, hf] at h

theorem consumePhase_clean (O : Oracles) (cfg : RunConfig) (serial : Serial) (idx : Nat)
    (fut : List (Int × Int)) (cp : Checkpoint) (c : Nat)
    (hsd : ∀ k, O.shutdown k = false) (hf : ∀ s, O.fetchOk serial s = true)
    (hp : ∀ day, O.persistOk serial day = true) :
    (consumePhase O cfg serial idx fut cp c).2.1 = true := by
  induction fut generalizing cp c with
  | nil => simp [consumePhase]
  | cons t fut ih =>
    obtain ⟨s, e⟩ := t
    simp only [consumePhase, hsd c, Bool.false_eq_true, if_false, hf s, if_true,
      hp (cfg.dayKey s)]
    exact ih _ _

theorem consumePhase_other_date (O : Oracles) (cfg : RunConfig) (serial : Serial) (idx : Nat)
    (fut : List (Int × Int)) (cp : Checkpoint) (c : Nat) (d0 : Serial) (day0 : Day)
    (hne : serial ≠ d0) :
    is_date_complete (consumePhase O cfg serial idx fut cp c).1 d0 day0 =
      is_date_complete cp d0 day0 := by
  induction fut generalizing cp c with
  | nil => simp [consumePhase]
  | cons t fut ih =>
    obtain ⟨s, e⟩ := t
    by_cases hs : O.shutdown c = true
    · simp [consumePhase, hs]
    · by_cases hf : O.fetchOk serial s = true
      · by_cases hp : O.persistOk serial (cfg.dayKey s) = true
        · simp only [consumePhase]
          rw [if_neg hs, if_pos hf, if_pos hp]
          rw [ih, is_date_complete_update_cursor,
            is_date_complete_mark_other cp serial (cfg.dayKey s) d0 day0 hne]
        · simp only [consumePhase]
          rw [if_neg hs, if_pos hf, if_neg hp]
          exact is_date_complete_mark_other cp serial (cfg.dayKey s) d0 day0 hne
      · simp [consumePhase, hs, hf]

theorem consumePhase_unit_preserve_false (O : Oracles) (cfg : RunConfig) (idx : Nat)
    (fut : List (Int × Int)) (cp : Checkpoint) (c : Nat) (D : Serial) (day : Day)
    (hf : ∀ s, cfg.dayKey s = day → O.fetchOk D s = false)
    (h : is_date_complete cp D day = false) :
    is_date_complete (consumePhase O cfg D idx fut cp c).1 D day = false := by
  induction fut generalizing cp c with
  | nil => simpa [consumePhase] using h
  | cons t fut ih =>
    obtain ⟨s, e⟩ := t
    by_cases hs : O.shutdown c = true
    · simpa [consumePhase, hs] using h
    · by_cases hfo : O.fetchOk D s = true
      · have hne : cfg.dayKey s ≠ day := by
          intro hEq
          rw [hf s hEq] at hfo
          cases hfo
        by_cases hp : O.persistOk D (cfg.dayKey s) = true
        · simp only [consumePhase]
          rw [if_neg hs, if_pos hfo, if_pos hp]
          apply ih
          rw [is_date_complete_update_cursor,
            is_date_complete_mark_other_day cp D (cfg.dayKey s) D day hne]
          exact h
        · simp only [consumePhase]
          rw [if_neg hs, if_pos hfo, if_neg hp]
          dsimp only
          rw [is_date_complete_mark_other_day cp D (cfg.dayKey s) D day hne]
          exact h
      · simp only [consumePhase]
        rw [if_neg hs, if_neg hfo]
        dsimp only
        exact h

theorem processDevice_subs_eq (O : Oracles) (cfg : RunConfig) (cp : Checkpoint)
    (serial : Serial) (idx c : Nat) :
    (processDevice O cfg cp serial idx c).subs =
      (submitPhase O (get_remaining_dates cfg cp serial) c).1.map Prod.fst := by
  simp only [processDevice]
  split <;> rfl

theorem processDevice_mono_date (O : Oracles) (cfg : RunConfig) (cp : Checkpoint)
    (serial : Serial) (idx c : Nat) (d0 : Serial) (day0 : Day)
    (h : is_date_complete cp d0 day0 = true) :
    is_date_complete (processDevice O cfg cp serial idx c).cp d0 day0 = true := by
  simp only [processDevice]
  split <;> dsimp only
  · rw [is_date_complete_mark_device]
    exact consumePhase_mono_date _ _ _ _ _ _ _ _ _ h
  · exact consumePhase_mono_date _ _ _ _ _ _ _ _ _ h

theorem processDevice_mono_device (O : Oracles) (cfg : RunConfig) (cp : Checkpoint)
    (serial : Serial) (idx c : Nat) (d0 : Serial)
    (h : is_device_complete cp d0 = true) :
    is_device_complete (processDevice O cfg cp serial idx c).cp d0 = true := by
  simp only [processDevice]
  split <;> dsimp only
  · apply is_device_complete_mark_device_mono
    rw [consumePhase_mono_device]
    exact h
  · rw [consumePhase_mono_device]
    exact h

theorem processDevice_marked_all (O : Oracles) (cfg : RunConfig) (cp : Checkpoint)
    (serial : Serial) (idx c : Nat)
    (h : (processDevice O cfg cp serial idx c).marked = true) :
    ∀ r ∈ cfg.dateRanges,
      is_date_complete (processDevice O cfg cp serial idx c).cp serial (cfg.dayKey r.1)
        = true := by
  intro r hr
  simp only [processDevice] at h ⊢
  by_cases hb : ((submitPhase O (get_remaining_dates cfg cp serial) c).2.1 &&
      (consumePhase O cfg serial idx (submitPhase O (get_remaining_dates cfg cp serial) c).1 cp
        (submitPhase O (get_remaining_dates cfg cp serial) c).2.2).2.1) = true
  · rw [if_pos hb]
    dsimp only
    rw [is_date_complete_mark_device]
    obtain ⟨hsub, hcons⟩ := Bool.and_eq_true_iff.mp hb
    by_cases hd : is_date_complete cp serial (cfg.dayKey r.1) = true
    · exact consumePhase_mono_date _ _ _ _ _ _ _ _ _ hd
    · have hrm : r ∈ get_remaining_dates cfg cp serial := by
        simp only [get_remaining_dates, List.mem_filter]
        refine ⟨hr, ?_⟩
        simp only [Bool.not_eq_true'] at hd ⊢
        exact Bool.not_eq_true _ ▸ (Bool.eq_false_iff.mpr hd)
      have hfut : r ∈ (submitPhase O (get_remaining_dates cfg cp serial) c).1 := by
        rw [submitPhase_ok_eq _ _ _ hsub]
        exact hrm
      exact consumePhase_ok_marks _ _ _ _ _ _ _ hcons r hfut
  · rw [if_neg hb] at h
    dsimp only at h
    cases h

theorem processDevice_marked_device (O : Oracles) (cfg : RunConfig) (cp : Checkpoint)
    (serial : Serial) (idx c : Nat)
    (h : (processDevice O cfg cp serial idx c).marked = true) :
    is_device_complete (processDevice O cfg cp serial idx c).cp serial = true := by
  simp only [processDevice] at h ⊢
  by_cases hb : ((submitPhase O (get_remaining_dates cfg cp serial) c).2.1 &&
      (consumePhase O cfg serial idx (submitPhase O (get_remaining_dates cfg cp serial) c).1 cp
        (submitPhase O (get_remaining_dates cfg cp serial) c).2.2).2.1) = true
  · rw [if_pos hb]
    dsimp only
    exact is_device_complete_mark_device_self _ _
  · rw [if_neg hb] at h
    dsimp only at h
    cases h

theorem processDevice_clean (O : Oracles) (cfg : RunConfig) (cp : Checkpoint)
    (serial : Serial) (idx c : Nat)
    (hsd : ∀ k, O.shutdown k = false) (hf : ∀ d s, O.fetchOk d s = true)
    (hp : ∀ d day, O.persistOk d day = true) :
    (processDevice O cfg cp serial idx c).marked = true := by
  simp only [processDevice]
  have hsub : (submitPhase O (get_remaining_dates cfg cp serial) c).2.1 = true := by
    rw [submitPhase_no_shutdown _ _ _ hsd]
  have hcons := consumePhase_clean O cfg serial idx
    (submitPhase O (get_remaining_dates cfg cp serial) c).1 cp
    (submitPhase O (get_remaining_dates cfg cp serial) c).2.2 hsd (hf serial) (hp serial)
  rw [if_pos (by simp [hsub, hcons])]

theorem processDevice_abort_false (O : Oracles) (cfg : RunConfig) (cp : Checkpoint)
    (serial : Serial) (idx c : Nat) (hdp : O.devicePersistOk serial = true) :
    (processDevice O cfg cp serial idx c).aborted = false := by
  simp only [processDevice]
  split <;> dsimp only
  simp [hdp]

theorem runDevices_mono_date (O : Oracles) (cfg : RunConfig) (ds : List Serial)
    (cp : Checkpoint) (idx c : Nat) (d0 : Serial) (day0 : Day)
    (h : is_date_complete cp d0 day0 = true) :
    is_date_complete (runDevices O cfg ds cp idx c).final d0 day0 = true := by
  induction ds generalizing cp idx c with
  | nil => simpa [runDevices] using h
  | cons d ds ih =>
    simp only [runDevices]
    split <;> dsimp only
    · exact processDevice_mono_date _ _ _ _ _ _ _ _ h
    · exact ih _ _ _ (processDevice_mono_date _ _ _ _ _ _ _ _ h)

theorem runDevices_mono_device (O : Oracles) (cfg : RunConfig) (ds : List Serial)
    (cp : Checkpoint) (idx c : Nat) (d0 : Serial)
    (h : is_device_complete cp d0 = true) :
    is_device_complete (runDevices O cfg ds cp idx c).final d0 = true := by
  induction ds generalizing cp idx c with
  | nil => simpa [runDevices] using h
  | cons d ds ih =>
    simp only [runDevices]
    split <;> dsimp only
    · exact processDevice_mono_device _ _ _ _ _ _ _ h
    · exact ih _ _ _ (processDevice_mono_device _ _ _ _ _ _ _ h)

theorem runDevices_no_abort (O : Oracles) (cfg : RunConfig) (ds : List Serial)
    (cp : Checkpoint) (idx c : Nat) (hdp : ∀ d, O.devicePersistOk d = true) :
    (runDevices O cfg ds cp idx c).aborted = false := by
  induction ds generalizing cp idx c with
  | nil => rfl
  | cons d ds ih =>
    simp only [runDevices]
    rw [if_neg (by rw [processDevice_abort_false O cfg cp d idx c (hdp d)]; simp)]
    dsimp only
    exact ih _ _ _

theorem runDevices_clean_all (O : Oracles) (cfg : RunConfig) (ds : List Serial)
    (cp : Checkpoint) (idx c : Nat)
    (hsd : ∀ k, O.shutdown k = false) (hf : ∀ d s, O.fetchOk d s = true)
    (hp : ∀ d day, O.persistOk d day = true) (hdp : ∀ d, O.devicePersistOk d = true) :
    ∀ d ∈ ds, is_device_complete (runDevices O cfg ds cp idx c).final d = true ∧
      ∀ r ∈ cfg.dateRanges,
        is_date_complete (runDevices O cfg ds cp idx c).final d (cfg.dayKey r.1) = true := by
  induction ds generalizing cp idx c with
  | nil => simp
  | cons d0 ds ih =>
    intro d hd
    simp only [runDevices]
    rw [if_neg (by rw [processDevice_abort_false O cfg cp d0 idx c (hdp d0)]; simp)]
    dsimp only
    rcases List.mem_cons.mp hd with rfl | hmem
    · have hm := processDevice_clean O cfg cp d idx c hsd hf hp
      constructor
      · exact runDevices_mono_device _ _ _ _ _ _ _
          (processDevice_marked_device O cfg cp d idx c hm)
      · intro r hr
        exact runDevices_mono_date _ _ _ _ _ _ _ _
          (processDevice_marked_all O cfg cp d idx c hm r hr)
    · exact ih _ _ _ d hmem

theorem processDevice_unit_preserve_false (O : Oracles) (cfg : RunConfig) (cp : Checkpoint)
    (serial : Serial) (idx c : Nat) (D : Serial) (day : Day)
    (hf : ∀ s, cfg.dayKey s = day → O.fetchOk D s = false)
    (h : is_date_complete cp D day = false) :
    is_date_complete (processDevice O cfg cp serial idx c).cp D day = false := by
  by_cases hds : serial = D
  · subst hds
    simp only [processDevice]
    split <;> dsimp only
    · rw [is_date_complete_mark_device]
      exact consumePhase_unit_preserve_false _ _ _ _ _ _ _ _ hf h
    · exact consumePhase_unit_preserve_false _ _ _ _ _ _ _ _ hf h
  · simp only [processDevice]
    split <;> dsimp only
    · rw [is_date_complete_mark_device, consumePhase_other_date _ _ _ _ _ _ _ _ _ hds]
      exact h
    · rw [consumePhase_other_date _ _ _ _ _ _ _ _ _ hds]
      exact h

theorem runDevices_unit_preserve_false (O : Oracles) (cfg : RunConfig) (ds : List Serial)
    (cp : Checkpoint) (idx c : Nat) (D : Serial) (day : Day)
    (hf : ∀ s, cfg.dayKey s = day → O.fetchOk D s = false)
    (h : is_date_complete cp D day = false) :
    is_date_complete (runDevices O cfg ds cp idx c).final D day = false := by
  induction ds generalizing cp idx c with
  | nil => simpa [runDevices] using h
  | cons d ds ih =>
    simp only [runDevices]
    split <;> dsimp only
    · exact processDevice_unit_preserve_false _ _ _ _ _ _ _ _ hf h
    · exact ih _ _ _ (processDevice_unit_preserve_false _ _ _ _ _ _ _ _ hf h)

theorem processDevice_subs_incomplete (O : Oracles) (cfg : RunConfig) (cp : Checkpoint)
    (serial : Serial) (idx c : Nat) (s : Int)
    (h : s ∈ (processDevice O cfg cp serial idx c).subs) :
    is_date_complete cp serial (cfg.dayKey s) = false := by
  rw [processDevice_subs_eq] at h
  obtain ⟨p, hp, rfl⟩ := List.mem_map.mp h
  have hmem := submitPhase_subset O _ c p hp
  simp only [get_remaining_dates, List.mem_filter, Bool.not_eq_true'] at hmem
  exact hmem.2

theorem runDevices_not_submitted (O : Oracles) (cfg : RunConfig) (ds : List Serial)
    (cp : Checkpoint) (idx c : Nat) (D : Serial) (s : Int)
    (h : is_date_complete cp D (cfg.dayKey s) = true) :
    (D, s) ∉ (runDevices O cfg ds cp idx c).subs := by
  induction ds generalizing cp idx c with
  | nil => simp [runDevices]
  | cons d ds ih =>
    simp only [runDevices]
    split <;> dsimp only
    · intro hmem
      obtain ⟨x, hx, hpair⟩ := List.mem_map.mp hmem
      injection hpair with h1 h2
      subst h1
      subst h2
      have hfalse := processDevice_subs_incomplete O cfg cp _ idx c _ hx
      rw [h] at hfalse
      cases hfalse
    · intro hmem
      rcases List.mem_append.mp hmem with h1 | h2
      · obtain ⟨x, hx, hpair⟩ := List.mem_map.mp h1
        injection hpair with h1 h2
        subst h1
        subst h2
        have hfalse := processDevice_subs_incomplete O cfg cp _ idx c _ hx
        rw [h] at hfalse
        cases hfalse
      · exact ih _ _ _ (processDevice_mono_date _ _ _ _ _ _ _ _ h) h2

theorem fetchLoop_const_error (code : Nat) (h4 : 400 ≤ code)
    (max_retries initial_backoff : Nat) :
    ∀ n rc, max_retries - rc = n → rc < max_retries →
      (fetchLoop (fun _ => AttemptResult.status code) max_retries initial_backoff rc).1
          = FetchResult.raised (FetchErr.requestFailed code) ∧
        countRequests
          (fetchLoop (fun _ => AttemptResult.status code) max_retries initial_backoff rc).2
          = max_retries - rc := by
  intro n
  induction n with
  | zero =>
    intro rc h0 hlt
    omega
  | succ n ih =>
    intro rc hn hlt
    rw [fetchLoop.eq_def, dif_pos hlt]
    dsimp only
    rw [if_pos h4]
    by_cases hl : rc = max_retries - 1
    · rw [if_pos hl]
      refine ⟨rfl, ?_⟩
      simp [countRequests]
      omega
    · rw [if_neg hl]
      dsimp only
      obtain ⟨h1, h2⟩ := ih (rc + 1) (by omega) (by omega)
      refine ⟨h1, ?_⟩
      simp only [countRequests, h2]
      omega

theorem fetchLoop_no_signal_checks (responses : Nat → AttemptResult)
    (max_retries initial_backoff : Nat) :
    ∀ n rc, max_retries - rc = n →
      countSignalChecks (fetchLoop responses max_retries initial_backoff rc).2 = 0 := by
  intro n
  induction n with
  | zero =>
    intro rc h0
    rw [fetchLoop.eq_def, dif_neg (by omega)]
    simp [countSignalChecks]
  | succ n ih =>
    intro rc hn
    by_cases hlt : rc < max_retries
    · rw [fetchLoop.eq_def, dif_pos hlt]
      rcases hres : responses rc with code | _ | _ <;> dsimp only
      · by_cases hc : 400 ≤ code
        · rw [if_pos hc]
          by_cases hl : rc = max_retries - 1
          · rw [if_pos hl]
            simp [countSignalChecks]
          · rw [if_neg hl]
            dsimp only
            simp only [countSignalChecks]
            exact ih (rc + 1) (by omega)
        · rw [if_neg hc]
          simp [countSignalChecks]
      · by_cases hl : rc = max_retries - 1
        · rw [if_pos hl]
          simp [countSignalChecks]
        · rw [if_neg hl]
          dsimp only
          simp only [countSignalChecks]
          exact ih (rc + 1) (by omega)
      · by_cases hl : rc = max_retries - 1
        · rw [if_pos hl]
          simp [countSignalChecks]
        · rw [if_neg hl]
          dsimp only
          simp only [countSignalChecks]
          exact ih (rc + 1) (by omega)
    · omega

theorem save_attempts_allfail (renameFails : Nat → Bool) (max_retries retry_delay : Nat)
    (hall : ∀ a, renameFails a = true) :
    ∀ n a, max_retries - a = n → a < max_retries →
      (save_checkpoint_attempts renameFails max_retries retry_delay a).1 = none ∧
      countRenameTries (save_checkpoint_attempts renameFails max_retries retry_delay a).2
        = max_retries - a ∧
      saveSleeps (save_checkpoint_attempts renameFails max_retries retry_delay a).2
        = (List.range' a (max_retries - 1 - a)).map (fun k => retry_delay * 2 ^ k) := by
  intro n
  induction n with
  | zero =>
    intro a h0 hlt
    omega
  | succ n ih =>
    intro a hn hlt
    rw [save_checkpoint_attempts.eq_def, dif_pos hlt, if_pos (hall a)]
    by_cases ha : a < max_retries - 1
    · rw [if_pos ha]
      dsimp only
      obtain ⟨h1, h2, h3⟩ := ih (a + 1) (by omega) (by omega)
      refine ⟨h1, ?_, ?_⟩
      · simp only [countRenameTries, h2]
        omega
      · simp only [saveSleeps, h3]
        have hr : max_retries - 1 - a = (max_retries - 1 - (a + 1)) + 1 := by omega
        rw [hr, List.range'_succ]
        rfl
    · rw [if_neg ha]
      refine ⟨rfl, ?_, ?_⟩
      · simp only [countRenameTries]
        omega
      · have hr : max_retries - 1 - a = 0 := by omega
        simp [saveSleeps, hr]

theorem emptyCheckpoint_invariant (cfg : RunConfig) : DeviceInvariant cfg emptyCheckpoint := by
  intro d h
  simp [is_device_complete, emptyCheckpoint] at h

/-- C1: whenever the coordinator marks a device complete
(mark_device_complete at processor.py line 312, guarded by
completed_all_dates), every day of the configured date range is already
recorded in completed_dates for that device (first conjunct, over every
oracle choice; mark_device_complete leaves completed_dates untouched, so
the state after the mark carries exactly the dates present at mark time);
and after a run without cancellation, fetch failure or persist failure,
starting from a checkpoint satisfying the §3 invariant, a device of the
registry appears in completed_devices iff every day of its configured
range appears in its completed_dates entry (second conjunct). -/
theorem C1_device_completion_correct (O : Oracles) (cfg : RunConfig) (ids : List Serial)
    (cp0 : Checkpoint) (hinv : DeviceInvariant cfg cp0)
    (hsd : ∀ k, O.shutdown k = false) (hf : ∀ d s, O.fetchOk d s = true)
    (hp : ∀ d day, O.persistOk d day = true) (hdp : ∀ d, O.devicePersistOk d = true) :
    (∀ (O2 : Oracles) (cfg2 : RunConfig) (cp : Checkpoint) (d : Serial) (idx c : Nat),
        (processDevice O2 cfg2 cp d idx c).marked = true →
        ∀ r ∈ cfg2.dateRanges,
          is_date_complete (processDevice O2 cfg2 cp d idx c).cp d (cfg2.dayKey r.1) = true) ∧
    (∀ d ∈ ids,
        (is_device_complete (run O cfg ids cp0).final d = true ↔
          ∀ r ∈ cfg.dateRanges,
            is_date_complete (run O cfg ids cp0).final d (cfg.dayKey r.1) = true)) := by
  constructor
  · intro O2 cfg2 cp d idx c hm
    exact processDevice_marked_all O2 cfg2 cp d idx c hm
  · intro d hd
    simp only [run]
    by_cases hc : is_device_complete cp0 d = true
    · refine iff_of_true (runDevices_mono_device _ _ _ _ _ _ _ hc) ?_
      intro r hr
      exact runDevices_mono_date _ _ _ _ _ _ _ _ (hinv d hc r hr)
    · have hdrem : d ∈ get_remaining_devices cp0 ids := by
        simp only [get_remaining_devices, List.mem_filter, Bool.not_eq_true']
        exact ⟨hd, by simpa using hc⟩
      obtain ⟨h1, h2⟩ := runDevices_clean_all O cfg (get_remaining_devices cp0 ids) cp0 0 0
        hsd hf hp hdp d hdrem
      exact iff_of_true h1 h2

/-- Witness for C1 at a concrete clean run: one device A, a single
one-day range, empty starting checkpoint. -/
theorem C1_device_completion_witness :
    DeviceInvariant cfgDemo emptyCheckpoint ∧
    (∀ d ∈ (["A"] : List Serial),
        (is_device_complete (run cleanOracles cfgDemo ["A"] emptyCheckpoint).final d = true ↔
          ∀ r ∈ cfgDemo.dateRanges,
            is_date_complete (run cleanOracles cfgDemo ["A"] emptyCheckpoint).final d
              (cfgDemo.dayKey r.1) = true)) :=
  ⟨emptyCheckpoint_invariant cfgDemo,
    (C1_device_completion_correct cleanOracles cfgDemo ["A"] emptyCheckpoint
      (emptyCheckpoint_invariant cfgDemo) (fun _ => rfl) (fun _ _ => rfl) (fun _ _ => rfl)
      (fun _ => rfl)).2⟩

/-- C2: a work unit whose day key is recorded complete in the checkpoint
at the start of the run is never submitted to the executor pool during
the run, for every device registry, configuration and oracle choice:
_get_remaining_dates filters it out, and completed_dates only grows, so
the filter still excludes it when its device is reached. -/
theorem C2_no_resubmission (O : Oracles) (cfg : RunConfig) (ids : List Serial)
    (cp0 : Checkpoint) (D : Serial) (s : Int)
    (h : is_date_complete cp0 D (cfg.dayKey s) = true) :
    (D, s) ∉ (run O cfg ids cp0).subs := by
  simp only [run]
  exact runDevices_not_submitted O cfg _ cp0 0 0 D s h

/-- Witness for C2: device A with day d0 already complete; the unit with
start timestamp 0 (whose key is d0) is not submitted in a clean run. -/
theorem C2_no_resubmission_witness :
    is_date_complete cpWithA "A" (cfgDemo.dayKey 0) = true ∧
    ("A", (0 : Int)) ∉ (run cleanOracles cfgDemo ["A"] cpWithA).subs :=
  ⟨by decide, C2_no_resubmission cleanOracles cfgDemo ["A"] cpWithA "A" 0 (by decide)⟩

/-- C3: persist writes the full serialization to a temporary file next to
the target, fsyncs it, then renames it over the target (third conjunct);
interrupting the attempt at any point before the final rename (running
any strict prefix of the operation sequence) leaves the target file
exactly as it was (first conjunct); the completed attempt installs the
complete serialization (second conjunct). -/
theorem C3_persist_atomic (cp : Checkpoint) (fs : FS) (k : Nat) (hk : k ≤ 2) :
    (runOps fs ((persistOps (serializeCheckpoint cp)).take k)).target = fs.target ∧
    runOps fs (persistOps (serializeCheckpoint cp)) =
      { target := some (serializeCheckpoint cp), temp := none } ∧
    persistOps (serializeCheckpoint cp) =
      [PersistOp.writeTemp (serializeCheckpoint cp), PersistOp.fsyncTemp,
        PersistOp.renameTempToTarget] := by
  refine ⟨?_, rfl, rfl⟩
  interval_cases k <;> rfl

/-- Witness for C3: crash after the temp-file write but before the rename
(k = 2 operations executed) on a concrete filesystem state. -/
theorem C3_persist_atomic_witness :
    (2 : Nat) ≤ 2 ∧
    ((runOps fsDemo ((persistOps (serializeCheckpoint emptyCheckpoint)).take 2)).target
        = fsDemo.target ∧
      runOps fsDemo (persistOps (serializeCheckpoint emptyCheckpoint)) =
        { target := some (serializeCheckpoint emptyCheckpoint), temp := none } ∧
      persistOps (serializeCheckpoint emptyCheckpoint) =
        [PersistOp.writeTemp (serializeCheckpoint emptyCheckpoint), PersistOp.fsyncTemp,
          PersistOp.renameTempToTarget]) :=
  ⟨by decide, C3_persist_atomic emptyCheckpoint fsDemo 2 (by decide)⟩

/-- Counterexample to C4: on a file that exists but cannot be
deserialized, load_checkpoint returns exactly what it returns for a
missing file - None, with the in-memory checkpoint left at its initial
empty value - instead of failing with a fatal error. -/
theorem C4_corrupt_load_counterexample :
    load_checkpoint emptyCheckpoint DiskRead.corrupt =
      load_checkpoint emptyCheckpoint DiskRead.missing ∧
    (load_checkpoint emptyCheckpoint DiskRead.corrupt).1 = emptyCheckpoint ∧
    (load_checkpoint emptyCheckpoint DiskRead.corrupt).2 = none :=
  ⟨rfl, rfl, rfl⟩

/-- C4 as amended: if the checkpoint file exists but cannot be
deserialized, load_checkpoint catches the exception, returns None with
the in-memory checkpoint unchanged, and the run silently continues from
that (empty) state exactly as if no checkpoint file existed. -/
theorem C4_corrupt_load_returns_absent (cur : Checkpoint) (O : Oracles) (cfg : RunConfig)
    (ids : List Serial) :
    load_checkpoint cur DiskRead.corrupt = (cur, none) ∧
    load_checkpoint cur DiskRead.corrupt = load_checkpoint cur DiskRead.missing ∧
    run O cfg ids (load_checkpoint cur DiskRead.corrupt).1 = run O cfg ids cur :=
  ⟨rfl, rfl, rfl⟩

/-- C5: when every request attempt of a fetch returns HTTP 503, the fetch
issues exactly max_retries request attempts and then raises the terminal
RequestException carrying the last error's status (first two conjuncts);
and that unit is never marked complete during the run (third conjunct):
a day key of a device is marked only by a successful fetch of a unit
carrying that day key, so if every fetch of a unit with this day key
raises - the sibling units of the device may succeed or fail freely -
and the day was not complete at the start of the run, it is still not
complete at the end.  (In the source, distinct configured days have
distinct date strings, so the hypothesis is exactly "this unit's every
fetch fails".) -/
theorem C5_retry_bound_503 (max_retries initial_backoff : Nat) (hm : 1 ≤ max_retries)
    (O : Oracles) (cfg : RunConfig) (ids : List Serial) (cp0 : Checkpoint)
    (D : Serial) (day : Day)
    (hf : ∀ s, cfg.dayKey s = day → O.fetchOk D s = false)
    (h0 : is_date_complete cp0 D day = false) :
    (fetch_device_data (fun _ => AttemptResult.status 503) max_retries initial_backoff).1
        = FetchResult.raised (FetchErr.requestFailed 503) ∧
    countRequests
        (fetch_device_data (fun _ => AttemptResult.status 503) max_retries initial_backoff).2
        = max_retries ∧
    is_date_complete (run O cfg ids cp0).final D day = false := by
  obtain ⟨h1, h2⟩ := fetchLoop_const_error 503 (by omega) max_retries initial_backoff
    (max_retries - 0) 0 rfl (by omega)
  refine ⟨h1, by simpa using h2, ?_⟩
  simp only [run]
  exact runDevices_unit_preserve_false O cfg _ cp0 0 0 D day hf h0

/-- Witness for C5 at a mixed run: max_retries = 2; device A has two
units, the unit for day d1 (start 86400) fails every attempt while its
sibling unit for day d0 succeeds; afterwards d1 is not marked (claim
conclusion) while d0 is marked (last conjunct), so the failing unit is
exercised amid succeeding siblings. -/
theorem C5_retry_bound_witness :
    (1 : Nat) ≤ 2 ∧
    (∀ s : Int, cfgTwoDays.dayKey s = "d1" → oneUnitFailOracles.fetchOk "A" s = false) ∧
    is_date_complete emptyCheckpoint "A" "d1" = false ∧
    ((fetch_device_data (fun _ => AttemptResult.status 503) 2 1).1
        = FetchResult.raised (FetchErr.requestFailed 503) ∧
      countRequests (fetch_device_data (fun _ => AttemptResult.status 503) 2 1).2 = 2 ∧
      is_date_complete (run oneUnitFailOracles cfgTwoDays ["A"] emptyCheckpoint).final
        "A" "d1" = false) ∧
    is_date_complete (run oneUnitFailOracles cfgTwoDays ["A"] emptyCheckpoint).final
      "A" "d0" = true :=
  ⟨by decide,
    fun s hs => by
      by_cases h : s = 86400
      · simp [oneUnitFailOracles, h]
      · have hkey : cfgTwoDays.dayKey s = "d0" := by simp [cfgTwoDays, h]
        rw [hkey] at hs
        exact absurd hs (by decide),
    by decide,
    C5_retry_bound_503 2 1 (by decide) oneUnitFailOracles cfgTwoDays ["A"] emptyCheckpoint
      "A" "d1"
      (fun s hs => by
        by_cases h : s = 86400
        · simp [oneUnitFailOracles, h]
        · have hkey : cfgTwoDays.dayKey s = "d0" := by simp [cfgTwoDays, h]
          rw [hkey] at hs
          exact absurd hs (by decide))
      (by decide),
    by decide⟩

/-- Counterexample to C6: with every attempt answering HTTP 400 (a client
error) and the default max_retries = 5, the fetch does not stop after the
4xx on attempt 0: the full trace shows four further request attempts,
each preceded by a backoff sleep. -/
theorem C6_client_error_counterexample :
    (fetch_device_data (fun _ => AttemptResult.status 400) 5 1).2 =
      [FetchEvent.request 0, FetchEvent.backoffSleep 0 1, FetchEvent.request 1,
        FetchEvent.backoffSleep 1 2, FetchEvent.request 2, FetchEvent.backoffSleep 2 4,
        FetchEvent.request 3, FetchEvent.backoffSleep 3 8, FetchEvent.request 4] ∧
    countRequests (fetch_device_data (fun _ => AttemptResult.status 400) 5 1).2 = 5 := by
  constructor <;>
    simp [fetch_device_data, fetchLoop, backoffDelay, countRequests]

/-- C6 as amended: a 4xx response raises HTTPError via raise_for_status
and lands in the same handler as a 5xx, so a unit whose every attempt
returns the same 4xx client error is retried with backoff up to exactly
max_retries attempts and then raises the terminal RequestException
carrying that status - 4xx is not a terminal-without-retry outcome. -/
theorem C6_client_error_retried (code max_retries initial_backoff : Nat)
    (h4 : 400 ≤ code) (h5 : code < 500) (hm : 1 ≤ max_retries) :
    (fetch_device_data (fun _ => AttemptResult.status code) max_retries initial_backoff).1
        = FetchResult.raised (FetchErr.requestFailed code) ∧
    countRequests
        (fetch_device_data (fun _ => AttemptResult.status code) max_retries initial_backoff).2
        = max_retries := by
  obtain ⟨h1, h2⟩ := fetchLoop_const_error code h4 max_retries initial_backoff
    (max_retries - 0) 0 rfl (by omega)
  exact ⟨h1, by simpa using h2⟩

/-- Witness for C6's amended statement at code 400, max_retries 5. -/
theorem C6_client_error_witness :
    (400 : Nat) ≤ 400 ∧ (400 : Nat) < 500 ∧ (1 : Nat) ≤ 5 ∧
    ((fetch_device_data (fun _ => AttemptResult.status 400) 5 1).1
        = FetchResult.raised (FetchErr.requestFailed 400) ∧
      countRequests (fetch_device_data (fun _ => AttemptResult.status 400) 5 1).2 = 5) :=
  ⟨by decide, by decide, by decide,
    C6_client_error_retried 400 5 1 (by decide) (by decide) (by decide)⟩

/-- Counterexample to C7: a fetch whose two attempts both return 503,
started while the shutdown signal is already set, still enters its
backoff sleep: its trace contains a backoff sleep that no observation of
the cancellation signal precedes (indeed the trace contains no signal
observation at all). -/
theorem C7_backoff_shutdown_counterexample :
    sleepPrecededByCheck (fetch_device_data (fun _ => AttemptResult.status 503) 2 1).2
      = false ∧
    countSleeps (fetch_device_data (fun _ => AttemptResult.status 503) 2 1).2 = 1 := by
  constructor <;>
    simp [fetch_device_data, fetchLoop, backoffDelay, sleepPrecededByCheck, sleepCheckGo,
      countSleeps]

/-- C7 as amended: fetch_device_data never observes the cancellation
signal - its trace contains no signal observation for any attempt
outcomes, so a retry's backoff sleep begins regardless of whether
shutdown has been requested; the signal is only observed by the
coordinator, before each unit submission and before consuming each
pending result. -/
theorem C7_fetch_never_checks_signal (responses : Nat → AttemptResult)
    (max_retries initial_backoff : Nat) :
    countSignalChecks (fetch_device_data responses max_retries initial_backoff).2 = 0 :=
  fetchLoop_no_signal_checks responses max_retries initial_backoff (max_retries - 0) 0 rfl

/-- Counterexample to C8: a run in which the checkpoint persist made
while marking unit (A, d0) complete raises (after exhausting its own
retries) is not aborted: the per-device handler catches the error, the
device is left unmarked (though the day is recorded in memory), and the
run returns normally - the persist failure is not fatal to the run. -/
theorem C8_persist_failure_counterexample :
    unitPersistFailOracles.persistOk "A" "d0" = false ∧
    (run unitPersistFailOracles cfgDemo ["A"] emptyCheckpoint).aborted = false ∧
    is_date_complete (run unitPersistFailOracles cfgDemo ["A"] emptyCheckpoint).final "A" "d0"
      = true ∧
    is_device_complete (run unitPersistFailOracles cfgDemo ["A"] emptyCheckpoint).final "A"
      = false := by
  refine ⟨rfl, ?_, ?_, ?_⟩ <;> decide

/-- C8 as amended: when every rename attempt fails with a transient OS
error, save_checkpoint makes exactly max_retries rename attempts with
exponentially increasing delays retry_delay * 2 ^ attempt between them,
then re-raises the last OS error (first three conjuncts); that raise is
fatal to the run only when it escapes the per-device handler (the
mark_device_complete call site): as long as the device-completion
persists succeed, the run never aborts, whatever happens to the per-unit
persists (fourth conjunct). -/
theorem C8_persist_retry_bound (renameFails : Nat → Bool) (max_retries retry_delay : Nat)
    (hm : 1 ≤ max_retries) (hall : ∀ a, renameFails a = true)
    (O : Oracles) (cfg : RunConfig) (ids : List Serial) (cp0 : Checkpoint)
    (hdp : ∀ d, O.devicePersistOk d = true) :
    (save_checkpoint_attempts renameFails max_retries retry_delay 0).1 = none ∧
    countRenameTries (save_checkpoint_attempts renameFails max_retries retry_delay 0).2
      = max_retries ∧
    saveSleeps (save_checkpoint_attempts renameFails max_retries retry_delay 0).2
      = (List.range (max_retries - 1)).map (fun k => retry_delay * 2 ^ k) ∧
    (run O cfg ids cp0).aborted = false := by
  obtain ⟨h1, h2, h3⟩ := save_attempts_allfail renameFails max_retries retry_delay hall
    (max_retries - 0) 0 rfl (by omega)
  refine ⟨h1, by simpa using h2, ?_, ?_⟩
  · rw [h3, List.range_eq_range', Nat.sub_zero]
  · simp only [run]
    exact runDevices_no_abort O cfg _ cp0 0 0 hdp

/-- Witness for C8's amended statement: three rename attempts, delays 1
and 2 between them, and a concrete non-aborting run. -/
theorem C8_persist_retry_witness :
    (1 : Nat) ≤ 3 ∧
    ((save_checkpoint_attempts (fun _ => true) 3 1 0).1 = none ∧
      countRenameTries (save_checkpoint_attempts (fun _ => true) 3 1 0).2 = 3 ∧
      saveSleeps (save_checkpoint_attempts (fun _ => true) 3 1 0).2
        = (List.range 2).map (fun k => 1 * 2 ^ k) ∧
      (run unitPersistFailOracles cfgDemo ["A"] emptyCheckpoint).aborted = false) :=
  ⟨by decide,
    C8_persist_retry_bound (fun _ => true) 3 1 (by decide) (fun _ => rfl)
      unitPersistFailOracles cfgDemo ["A"] emptyCheckpoint (fun _ => rfl)⟩

/-- Counterexample to C9: for the two-day range over a fixed-offset zone
(offset 0), the end timestamp of the first day's unit is 86399, while the
start timestamp of the second day's unit is 86400: consecutive units do
not share a boundary timestamp. -/
theorem C9_day_boundary_counterexample :
    ((get_daily_unix_ranges 0 1 0).get ⟨0, by decide⟩).2 ≠
      ((get_daily_unix_ranges 0 1 0).get ⟨1, by decide⟩).1 ∧
    get_daily_unix_ranges 0 1 0 = [((0 : Int), (86399 : Int)), ((86400 : Int), (172799 : Int))] := by
  constructor <;> decide

/-- C9 as amended: the generated units tile the range inclusively at both
endpoints with one-second granularity: for each day before the last, the
end timestamp of its unit (23:59:59 of the day) is exactly one second
before the start timestamp of the next day's unit (00:00:00 of the next
day) - every integer second of the range is covered, but the shared
boundary instant claimed by the half-open reading does not exist. -/
theorem C9_day_ranges_adjacent (startDay endDay : Nat) (tzOffset : Int) (i : Nat)
    (h : i + 1 < (get_daily_unix_ranges startDay endDay tzOffset).length) :
    ((get_daily_unix_ranges startDay endDay tzOffset).get ⟨i, by omega⟩).2 + 1 =
      ((get_daily_unix_ranges startDay endDay tzOffset).get ⟨i + 1, h⟩).1 := by
  have hlen : (get_daily_unix_ranges startDay endDay tzOffset).length
      = endDay + 1 - startDay := by
    simp [get_daily_unix_ranges]
  simp only [get_daily_unix_ranges, List.get_eq_getElem, List.getElem_map,
    List.getElem_range']
  simp only [dayTimestamp]
  push_cast
  ring

/-- Witness for C9's amended statement: the first two days of a two-day
range at offset 0. -/
theorem C9_day_ranges_witness :
    0 + 1 < (get_daily_unix_ranges 0 1 0).length ∧
    ((get_daily_unix_ranges 0 1 0).get ⟨0, by decide⟩).2 + 1 =
      ((get_daily_unix_ranges 0 1 0).get ⟨0 + 1, by decide⟩).1 :=
  ⟨by decide, C9_day_ranges_adjacent 0 1 0 0 (by decide)⟩

/-- C10: is_device_complete and is_date_complete are total pure queries:
for every checkpoint state, serial and day - including devices with no
completed_dates entry and devices never marked - the exception-explicit
embeddings return ok with the plain boolean result and hand the state
back unchanged (no KeyError escapes the guarded dict subscript, and
neither query calls save_checkpoint, so the on-disk file is untouched);
a device with no completed_dates entry yields false, and a device absent
from completed_devices yields false. -/
theorem C10_queries_total_pure (cp : Checkpoint) (d : Serial) (day : Day) :
    is_device_complete_checked cp d = Except.ok (is_device_complete cp d, cp) ∧
    is_date_complete_checked cp d day = Except.ok (is_date_complete cp d day, cp) ∧
    (dictGet cp.completed_dates d = none → is_date_complete cp d day = false) ∧
    (d ∉ cp.completed_devices → is_device_complete cp d = false) := by
  refine ⟨rfl, ?_, ?_, ?_⟩
  · cases hdg : dictGet cp.completed_dates d with
    | none => simp [is_date_complete_checked, is_date_complete, datesLookupHas, hdg]
    | some s => simp [is_date_complete_checked, is_date_complete, datesLookupHas, hdg]
  · intro hdg
    simp [is_date_complete, datesLookupHas, hdg]
  · intro hmem
    simp [is_device_complete, hmem]

/-- Witness for C10 on a device X that has no completed_dates entry and
is absent from completed_devices. -/
theorem C10_queries_total_pure_witness :
    dictGet cpWithA.completed_dates "X" = none ∧
    "X" ∉ cpWithA.completed_devices ∧
    (is_device_complete_checked cpWithA "X" = Except.ok (is_device_complete cpWithA "X", cpWithA) ∧
      is_date_complete_checked cpWithA "X" "d1"
        = Except.ok (is_date_complete cpWithA "X" "d1", cpWithA) ∧
      (dictGet cpWithA.completed_dates "X" = none →
        is_date_complete cpWithA "X" "d1" = false) ∧
      ("X" ∉ cpWithA.completed_devices → is_device_complete cpWithA "X" = false)) :=
  ⟨by decide, by decide, C10_queries_total_pure cpWithA "X" "d1"⟩

end Solarman
